import Mathlib

/-!
Verification of the stream-decoding and task-control logic of
`src/environment/script.js` (RedBookToolbox web control surface).

The decoder embedded here is the read loop of `runScript`
(script.js lines 206-257): append each chunk to a buffer, split on
newline, retain the trailing incomplete fragment, and process each
complete line (skip blank lines, skip pure-hex transport artifacts,
dispatch structured `JSON.parse` records, fall back to verbatim output,
and break out of the per-batch line loop on the `STREAM_END` sentinel).

The control surface embedded here consists of `runScript`'s guard and
state updates, `stopScript`, `resetUIState`, `startTaskMonitoring`,
`stopTaskMonitoring` and `updateTaskStatus`.  DOM-only effects (button
styling, status dots, overlays) are presentation and are not modelled;
the modelled state is the module-level mutable state (`isScriptRunning`,
`abortController`, `taskMonitorInterval`) plus the ordered log of
`appendOutput` calls.

Byte chunks are modelled as lists of characters: `TextDecoder` with
`stream: true` reassembles multi-byte encodings across chunk boundaries,
so byte-level fragmentation reduces to character-level fragmentation of
the decoded text.
-/

/-- The value space of the platform `JSON.parse` builtin, as inspected by
the decode loop (`data.type`, `data.content`, truthiness). -/
inductive Json where
  | null : Json
  | bool (b : Bool) : Json
  | num (n : Int) : Json
  | str (s : List Char) : Json
  | arr (elems : List Json) : Json
  | obj (fields : List (List Char × Json)) : Json

/-- JavaScript property access `j[key]` on a parsed value: defined only on
objects, `none` models `undefined`. -/
def getField (j : Json) (key : List Char) : Option Json :=
  match j with
  | Json.obj fields => (fields.find? (fun kv => decide (kv.1 = key))).map (fun kv => kv.2)
  | _ => none

/-- JavaScript truthiness of a parsed JSON value (`data.content` guards). -/
def truthy (v : Json) : Bool :=
  match v with
  | Json.null => false
  | Json.bool b => b
  | Json.num n => decide (n ≠ 0)
  | Json.str s => decide (s ≠ [])
  | Json.arr _ => true
  | Json.obj _ => true

/-- Whitespace recognised by JavaScript `String.prototype.trim` (the code
points that can occur in this protocol's lines). -/
def isJsWS (c : Char) : Bool :=
  c == ' ' || c == '\t' || c == '\n' || c == '\r' || c == '\x0b' || c == '\x0c'

/-- Source `line.trim()`: strip leading and trailing whitespace. -/
def trimChars (l : List Char) : List Char :=
  ((l.dropWhile isJsWS).reverse.dropWhile isJsWS).reverse

/-- One character of the character class `[0-9a-fA-F]`. -/
def isHexDigitCh (c : Char) : Bool :=
  (decide ('0' ≤ c) && decide (c ≤ '9'))
    || (decide ('a' ≤ c) && decide (c ≤ 'f'))
    || (decide ('A' ≤ c) && decide (c ≤ 'F'))

/-- The chunk-size artifact test `/^[0-9a-fA-F]+$/.test(trimmedLine)`
(script.js line 226): nonempty and all hex digits. -/
def isHexTok (t : List Char) : Bool :=
  !t.isEmpty && t.all isHexDigitCh

/-- Source `buffer.split('\n')` followed by `buffer = lines.pop() || ''`
(script.js lines 218-219): the complete lines and the retained trailing
fragment of a buffer. -/
def splitBuf : List Char → List (List Char) × List Char
  | [] => ([], [])
  | c :: rest =>
      let p := splitBuf rest
      if c = '\n' then ([] :: p.1, p.2)
      else
        match p.1 with
        | [] => ([], c :: p.2)
        | l :: ls => ((c :: l) :: ls, p.2)

def tyKey : List Char := String.toList "type"

def coKey : List Char := String.toList "content"

def outLit : List Char := String.toList "output"

def errLit : List Char := String.toList "error"

def sucLit : List Char := String.toList "success"

def warLit : List Char := String.toList "warning"

def endLit : List Char := String.toList "end"

def sentinelLit : List Char := String.toList "STREAM_END"

/-- Strict equality `data.type === s` for a string literal `s`: it holds only
when the `type` field is present and is exactly that string. -/
def typeIs (j : Json) (s : List Char) : Bool :=
  match getField j tyKey with
  | some (Json.str t) => decide (t = s)
  | _ => false

/-- Truthiness of `data.content` (`undefined` when the field is absent,
hence falsy). -/
def contentTruthy (j : Json) : Bool :=
  match getField j coKey with
  | some v => truthy v
  | none => false

/-- Strict equality `data.content === 'STREAM_END'`. -/
def contentIsSentinel (j : Json) : Bool :=
  match getField j coKey with
  | some (Json.str c) => decide (c = sentinelLit)
  | _ => false

/-- The `data.content` value passed to `appendOutput` on a matched render
branch (always present there, since the branch requires it truthy). -/
def contentOf (j : Json) : Json :=
  (getField j coKey).getD Json.null

/-- The css class `appendOutput` is called with: info, error, success or
warning.  Protocol `output`-kind records are rendered with class `info`. -/
inductive EvKind where
  | info : EvKind
  | error : EvKind
  | success : EvKind
  | warning : EvKind

/-- One `appendOutput` call: the rendered content and its class. -/
structure Ev where
  kind : EvKind
  content : Json

/-- The branch chain on a successfully parsed line (script.js lines
233-246).  Result: the events emitted for the line, and whether the
`end`/`STREAM_END` branch was taken (which breaks the per-batch loop). -/
def dispatch (j : Json) : List Ev × Bool :=
  if typeIs j outLit && contentTruthy j then ([⟨EvKind.info, contentOf j⟩], false)
  else if typeIs j errLit && contentTruthy j then ([⟨EvKind.error, contentOf j⟩], false)
  else if typeIs j sucLit && contentTruthy j then ([⟨EvKind.success, contentOf j⟩], false)
  else if typeIs j warLit && contentTruthy j then ([⟨EvKind.warning, contentOf j⟩], false)
  else if typeIs j endLit && contentIsSentinel j then ([], true)
  else ([], false)

/-- Processing of one complete line (script.js lines 221-252), parametric
in the `JSON.parse` model `P`.  Blank lines and pure-hex tokens are
skipped; a parse failure emits the trimmed text verbatim with class
`info` (the hex re-test in the catch block is always true there, since
hex lines were already skipped before the parse attempt). -/
def lineStep (P : List Char → Option Json) (l : List Char) : List Ev × Bool :=
  let t := trimChars l
  if t.isEmpty then ([], false)
  else if isHexTok t then ([], false)
  else
    match P t with
    | some j => dispatch j
    | none => ([⟨EvKind.info, Json.str t⟩], false)

/-- The `for (const line of lines)` loop over one batch of complete lines:
processes lines in order and breaks at the first `end`/`STREAM_END`
record, dropping the remaining lines of the batch. -/
def processLines (P : List Char → Option Json) : List (List Char) → List Ev × Bool
  | [] => ([], false)
  | l :: rest =>
      let s := lineStep P l
      if s.2 then (s.1, true)
      else
        let r := processLines P rest
        (s.1 ++ r.1, r.2)

/-- The outer `while (true)` read loop from a given buffer: each chunk is
appended to the buffer, complete lines are processed, and the trailing
fragment is retained.  The sentinel break does not stop this loop (it
only breaks the inner line loop), so reading continues with the next
chunk; the boolean records whether any batch hit the sentinel (each such
hit calls `stopTaskMonitoring`). -/
def runFrom (P : List Char → Option Json) : List Char → List (List Char) → List Ev × Bool
  | _, [] => ([], false)
  | buf, c :: cs =>
      let p := splitBuf (buf ++ c)
      let r := processLines P p.1
      let rest := runFrom P p.2 cs
      (r.1 ++ rest.1, r.2 || rest.2)

/-- The ordered event sequence emitted by `runScript`'s decode loop on a
given fragmentation of the byte stream into chunks. -/
def decodeChunks (P : List Char → Option Json) (chunks : List (List Char)) : List Ev :=
  (runFrom P [] chunks).1

/-- Match a literal character sequence and return the remaining input. -/
def matchLit : List Char → List Char → Option (List Char)
  | [], t => some t
  | _ :: _, [] => none
  | c :: p, d :: t => if c = d then matchLit p t else none

/-- Consume characters up to an unescaped closing quote; fails on a
backslash (escape sequences are outside the modelled grammar). -/
def takeStr : List Char → Option (List Char × List Char)
  | [] => none
  | c :: rest =>
      if c = '\x22' then some ([], rest)
      else if c = '\\' then none
      else (takeStr rest).map (fun pr => (c :: pr.1, pr.2))

def recLit1 : List Char := String.toList "\x7b\x22type\x22:\x22"

def recLit2 : List Char := String.toList ",\x22content\x22:\x22"

def recLit3 : List Char := String.toList "\x7d"

/-- A computable model of the platform `JSON.parse` builtin restricted to
the flat record grammar the wire protocol uses (spec section 6): exactly
an object with a string `type` field and a string `content` field, no
spaces, no escape sequences.  Inputs outside this grammar are treated as
a decode failure.  Theorems about the decoder are parametric in the
parse function; this instance is used only to evaluate concrete inputs,
on which it agrees with `JSON.parse`. -/
def parseRecord (t : List Char) : Option Json :=
  match matchLit recLit1 t with
  | none => none
  | some t1 =>
    match takeStr t1 with
    | none => none
    | some (ty, t2) =>
      match matchLit recLit2 t2 with
      | none => none
      | some t3 =>
        match takeStr t3 with
        | none => none
        | some (co, t4) =>
          if t4 = recLit3 then
            some (Json.obj [(tyKey, Json.str ty), (coKey, Json.str co)])
          else none

/-- The module-level mutable state of script.js together with the ordered
log of `appendOutput` calls (presentation-only DOM state is omitted). -/
structure CtrlState where
  isScriptRunning : Bool
  abortController : Bool
  taskMonitorInterval : Bool
  outputLog : List Ev

/-- Source `appendOutput(text, type)` (script.js lines 455-466): appends one
rendered line to the output log. -/
def appendOutput (st : CtrlState) (text : List Char) (k : EvKind) : CtrlState :=
  { st with outputLog := st.outputLog ++ [⟨k, Json.str text⟩] }

/-- Source `stopTaskMonitoring` (script.js lines 931-937): clears the poll timer
if one is active. -/
def stopTaskMonitoring (st : CtrlState) : CtrlState :=
  { st with taskMonitorInterval := false }

/-- Source `startTaskMonitoring` (script.js lines 912-929): clears any existing
poll timer and installs a fresh one. -/
def startTaskMonitoring (st : CtrlState) : CtrlState :=
  { st with taskMonitorInterval := true }

/-- Source `resetUIState` (script.js lines 100-132): clears the running flag and
the abort controller, then stops task monitoring; DOM resets omitted. -/
def resetUIState (st : CtrlState) : CtrlState :=
  stopTaskMonitoring { st with isScriptRunning := false, abortController := false }

/-- The script-name display map `SCRIPT_DISPLAY_NAMES` (script.js lines
7-18); a missing key renders as JavaScript `undefined` in the template
literal. -/
def SCRIPT_DISPLAY_NAMES : List (List Char × List Char) :=
  [ (String.toList "build_folder", String.toList "Build_folder.py")
  , (String.toList "rename_files", String.toList "Rename_files.py")
  , (String.toList "webp_video", String.toList "Webp_video_to_img.py")
  , (String.toList "copy_files", String.toList "Copy_files.py")
  , (String.toList "unzip", String.toList "Unzip.py")
  , (String.toList "md5_renew", String.toList "Md5_renew.py")
  , (String.toList "auto_build_copy", String.toList "Auto_build_and_copy.py")
  , (String.toList "webp_resize", String.toList "Webp_resize.py")
  , (String.toList "excel_renew", String.toList "Excel_renew.py")
  , (String.toList "test_stop_button", String.toList "Test_stop_button.py") ]

def displayNameOf (scriptName : List Char) : List Char :=
  ((SCRIPT_DISPLAY_NAMES.find? (fun kv => decide (kv.1 = scriptName))).map
    (fun kv => kv.2)).getD (String.toList "undefined")

def alreadyRunningMsg : List Char :=
  String.toList "⚠️ 已有脚本正在执行，请先停止当前脚本"

def startMsgFor (scriptName : List Char) : List Char :=
  String.toList "🚀 开始执行脚本: " ++ displayNameOf scriptName

def doneMsg : List Char := String.toList "✅ 脚本执行流程完成"

def cancelMsg : List Char := String.toList "🛑 脚本执行已被用户取消"

def execErrP : List Char := String.toList "❌ 执行错误: "

def abortErrLit : List Char := String.toList "AbortError"

/-- The synchronous head of `runScript` (script.js lines 135-192): the
single-flight guard, then (when idle) set the running flag, create a
fresh abort controller, clear the output panel, log the start notice,
start task monitoring and issue the start request.  The boolean is true
exactly when the start request was issued. -/
def runScriptStart (st : CtrlState) (scriptName : List Char) : CtrlState × Bool :=
  if st.isScriptRunning then
    (appendOutput st alreadyRunningMsg EvKind.warning, false)
  else
    let st1 := { st with isScriptRunning := true, abortController := true, outputLog := [] }
    let st2 := appendOutput st1 (startMsgFor scriptName) EvKind.info
    (startTaskMonitoring st2, true)

/-- One complete execution of `runScript` as observed at its return: the
chunks delivered by the response stream before it finished (or before an
exception), and the exception name if the `try` body threw
(`AbortError` on user cancellation, `TypeError` on network failure,
`Error` on a non-ok response). -/
structure RunOutcome where
  chunks : List (List Char)
  errName : Option (List Char)

/-- Source `runScript` end to end (script.js lines 135-276): guard, start, the
decode loop over the delivered chunks (each sentinel hit calls
`stopTaskMonitoring`), the success notice or the catch branch, and the
unconditional `finally \x7b resetUIState() \x7d`. -/
def runScript (P : List Char → Option Json) (st : CtrlState) (scriptName : List Char)
    (oc : RunOutcome) : CtrlState :=
  if st.isScriptRunning then
    appendOutput st alreadyRunningMsg EvKind.warning
  else
    let st1 := (runScriptStart st scriptName).1
    let d := runFrom P [] oc.chunks
    let st2 := { st1 with outputLog := (st1.outputLog ++ d.1), taskMonitorInterval := (st1.taskMonitorInterval && !d.2) }
    let st3 :=
      match oc.errName with
      | none => appendOutput st2 doneMsg EvKind.success
      | some n =>
          if n = abortErrLit then appendOutput st2 cancelMsg EvKind.warning
          else appendOutput st2 (execErrP ++ n) EvKind.error
    resetUIState st3

/-- The parsed body of a `/api/stop-script` response. -/
structure StopResp where
  ok : Bool
  httpStatus : Nat
  resStatus : List Char
  message : List Char

def stopFailMsg : List Char := String.toList "终止脚本失败"

/-- Source `stopScript` (script.js lines 21-97), as a function of the stop
request's outcome: abort any in-flight start request and clear the
abort controller, then issue the stop request; on an ok response log the
result and reset, on a non-ok response or a thrown error log the failure
and reset.  Only a caught `AbortError` returns early without resetting
(unreachable in the browser: the stop request carries no abort signal,
so its `fetch` can never reject with `AbortError`). -/
def stopScript (st : CtrlState) (oc : Except (List Char) StopResp) : CtrlState :=
  let st1 := if st.abortController then { st with abortController := false } else st
  match oc with
  | Except.ok r =>
      if r.ok then
        let st2 :=
          if r.resStatus = sucLit then
            appendOutput st1 (String.toList "=== " ++ r.message ++ String.toList " ===")
              EvKind.warning
          else if r.resStatus = String.toList "info" then
            appendOutput st1 r.message EvKind.info
          else st1
        resetUIState st2
      else
        resetUIState (appendOutput st1 stopFailMsg EvKind.error)
  | Except.error name =>
      if name = abortErrLit then st1
      else resetUIState (appendOutput st1 stopFailMsg EvKind.error)

/-- The `/api/tasks` poll snapshot destructured by `updateTaskStatus`. -/
structure TaskSnapshot where
  active_tasks : List (List Char)
  process_count : Nat
  total_tasks : Nat

/-- Source `updateTaskStatus` (script.js lines 943-980): the reconciliation
step applied to each poll snapshot.  It only reads the snapshot and
writes the local state; nothing is sent back to the server. -/
def updateTaskStatus (st : CtrlState) (td : TaskSnapshot) : CtrlState :=
  if 0 < td.active_tasks.length then
    if !st.isScriptRunning then { st with isScriptRunning := true } else st
  else
    let st1 := if st.isScriptRunning then resetUIState st else st
    if st1.taskMonitorInterval then stopTaskMonitoring st1 else st1

def quietLine (P : List Char → Option Json) (l : List Char) : Bool :=
  (lineStep P l).1.isEmpty

def goodLines (P : List Char → Option Json) : List (List Char) → Bool
  | [] => true
  | l :: rest =>
      if (lineStep P l).2 then rest.all (quietLine P)
      else goodLines P rest

def recognizedKind (j : Json) : Bool :=
  typeIs j outLit || typeIs j errLit || typeIs j sucLit || typeIs j warLit || typeIs j endLit

def endRec : List Char :=
  String.toList "\x7b\x22type\x22:\x22end\x22,\x22content\x22:\x22STREAM_END\x22\x7d"

def outHi : List Char :=
  String.toList "\x7b\x22type\x22:\x22output\x22,\x22content\x22:\x22hi\x22\x7d"

def outLate : List Char :=
  String.toList "\x7b\x22type\x22:\x22output\x22,\x22content\x22:\x22late\x22\x7d"

def outLate2 : List Char :=
  String.toList "\x7b\x22type\x22:\x22output\x22,\x22content\x22:\x22late2\x22\x7d"

theorem splitBuf_append (a b : List Char) :
    splitBuf (a ++ b) = ((splitBuf a).1 ++ (splitBuf ((splitBuf a).2 ++ b)).1,
      (splitBuf ((splitBuf a).2 ++ b)).2) := by
  induction a with
  | nil => simp [splitBuf]
  | cons c a ih =>
      by_cases hc : c = '\n'
      · simp [splitBuf, hc, ih]
      · cases hq : (splitBuf a).1 with
        | nil =>
            have h2 : splitBuf (a ++ b) = splitBuf ((splitBuf a).2 ++ b) := by
              rw [ih, hq]
              simp
            simp only [List.cons_append, splitBuf, if_neg hc, hq, List.append_eq]
            rw [h2]
            cases hr : (splitBuf ((splitBuf a).2 ++ b)).1 <;> simp [hr]
        | cons l ls =>
            simp only [List.cons_append, splitBuf, if_neg hc, hq, List.append_eq]
            rw [ih, hq]
            simp

theorem splitBuf_frag_noNL (a : List Char) : '\n' ∉ (splitBuf a).2 := by
  induction a with
  | nil => simp [splitBuf]
  | cons c a ih =>
      by_cases hc : c = '\n'
      · simp [splitBuf, hc, ih]
      · cases hq : (splitBuf a).1 with
        | nil =>
            simp only [splitBuf, if_neg hc, hq]
            intro h
            rcases List.mem_cons.mp h with h | h
            · exact hc h.symm
            · exact ih h
        | cons l ls => simpa [splitBuf, if_neg hc, hq] using ih

theorem splitBuf_of_noNL (a : List Char) (h : '\n' ∉ a) : splitBuf a = ([], a) := by
  induction a with
  | nil => simp [splitBuf]
  | cons c a ih =>
      have hc : c ≠ '\n' := fun hh => h (by simp [hh])
      have ha : '\n' ∉ a := fun hh => h (List.mem_cons_of_mem _ hh)
      simp [splitBuf, if_neg hc, ih ha]


theorem dispatch_end_nil (j : Json) (h : (dispatch j).2 = true) : (dispatch j).1 = [] := by
  unfold dispatch at h ⊢
  split_ifs at h ⊢
  all_goals simp_all

theorem lineStep_end_nil (P : List Char → Option Json) (l : List Char)
    (h : (lineStep P l).2 = true) : (lineStep P l).1 = [] := by
  simp only [lineStep] at h ⊢
  by_cases h1 : (trimChars l).isEmpty = true
  · rw [if_pos h1] at h
    simp at h
  · rw [if_neg h1] at h ⊢
    by_cases h2 : isHexTok (trimChars l) = true
    · rw [if_pos h2] at h
      simp at h
    · rw [if_neg h2] at h ⊢
      generalize P (trimChars l) = r at h ⊢
      cases r with
      | none => simp at h
      | some j => exact dispatch_end_nil j h

theorem processLines_append (P : List Char → Option Json) (A B : List (List Char)) :
    processLines P (A ++ B) =
      if (processLines P A).2 then processLines P A
      else ((processLines P A).1 ++ (processLines P B).1, (processLines P B).2) := by
  induction A with
  | nil => simp [processLines]
  | cons l A ih =>
      simp only [List.cons_append, processLines, ih]
      by_cases h : (lineStep P l).2
      · simp [h]
      · by_cases h2 : (processLines P A).2 <;> simp [ih, h, h2, List.append_assoc]

theorem goodLines_append_of_not_end (P : List Char → Option Json) (A B : List (List Char))
    (h : (processLines P A).2 = false) : goodLines P (A ++ B) = goodLines P B := by
  induction A with
  | nil => simp
  | cons l A ih =>
      simp only [processLines] at h
      by_cases hl : (lineStep P l).2
      · simp [hl] at h
      · simp only [hl, if_false, Bool.false_eq_true, ite_false] at h
        simp only [List.cons_append, goodLines, hl, if_false, Bool.false_eq_true, ite_false]
        exact ih h

theorem all_quiet_of_goodLines_end (P : List Char → Option Json) (A B : List (List Char))
    (h : (processLines P A).2 = true) (hg : goodLines P (A ++ B) = true) :
    B.all (quietLine P) = true := by
  induction A with
  | nil => simp [processLines] at h
  | cons l A ih =>
      by_cases hl : (lineStep P l).2
      · simp only [List.cons_append, goodLines, hl, if_true, List.append_eq] at hg
        rw [List.all_append] at hg
        exact ((Bool.and_eq_true _ _).mp hg).2
      · simp only [processLines, hl, if_false, Bool.false_eq_true, ite_false] at h
        simp only [List.cons_append, goodLines, hl, if_false, Bool.false_eq_true, ite_false] at hg
        exact ih h hg

theorem processLines_fst_of_quiet (P : List Char → Option Json) (ls : List (List Char))
    (h : ls.all (quietLine P) = true) : (processLines P ls).1 = [] := by
  induction ls with
  | nil => simp [processLines]
  | cons l ls ih =>
      rw [List.all_cons] at h
      rw [Bool.and_eq_true] at h
      have h1 : (lineStep P l).1 = [] := List.isEmpty_iff.mp h.1
      by_cases hl : (lineStep P l).2 <;> simp [processLines, hl, h1, ih h.2]

theorem runFrom_fst_of_quiet (P : List Char → Option Json) (cs : List (List Char)) :
    ∀ buf : List Char, ((splitBuf (buf ++ cs.flatten)).1).all (quietLine P) = true →
      (runFrom P buf cs).1 = [] := by
  induction cs with
  | nil => intro buf _; simp [runFrom]
  | cons c cs ih =>
      intro buf hq
      have hassoc : buf ++ (c :: cs).flatten = (buf ++ c) ++ cs.flatten := by
        simp [List.flatten]
      rw [hassoc, splitBuf_append, List.all_append] at hq
      rw [Bool.and_eq_true] at hq
      simp only [runFrom]
      rw [processLines_fst_of_quiet P _ hq.1]
      simp only [List.nil_append]
      exact ih _ hq.2

theorem runFrom_eq_processLines (P : List Char → Option Json) (cs : List (List Char)) :
    ∀ buf : List Char, '\n' ∉ buf →
      goodLines P (splitBuf (buf ++ cs.flatten)).1 = true →
      (runFrom P buf cs).1 = (processLines P (splitBuf (buf ++ cs.flatten)).1).1 := by
  induction cs with
  | nil =>
      intro buf hb _
      rw [List.flatten_nil, List.append_nil, splitBuf_of_noNL buf hb]
      simp [runFrom, processLines]
  | cons c cs ih =>
      intro buf hb hg
      have hassoc : buf ++ (c :: cs).flatten = (buf ++ c) ++ cs.flatten := by
        simp [List.flatten]
      rw [hassoc, splitBuf_append] at hg ⊢
      simp only [runFrom]
      by_cases h2 : (processLines P (splitBuf (buf ++ c)).1).2
      · rw [processLines_append, if_pos h2]
        have hquiet : ((splitBuf ((splitBuf (buf ++ c)).2 ++ cs.flatten)).1).all (quietLine P)
            = true :=
          all_quiet_of_goodLines_end P _ _ h2 hg
        rw [runFrom_fst_of_quiet P cs _ hquiet]
        simp
      · rw [processLines_append, if_neg h2]
        have h2f : (processLines P (splitBuf (buf ++ c)).1).2 = false :=
          Bool.of_not_eq_true h2
        have hg2 : goodLines P (splitBuf ((splitBuf (buf ++ c)).2 ++ cs.flatten)).1 = true := by
          rw [goodLines_append_of_not_end P _ _ h2f] at hg
          exact hg
        rw [ih _ (splitBuf_frag_noNL _) hg2]


/-- Claim C1 (amended): for every logical byte stream whose complete lines,
after the first `end`/`STREAM_END` line (if any), all emit nothing (in
particular every well-formed stream, where the sentinel record is the
final line), any two fragmentations of the stream into byte chunks yield
an identical ordered sequence of emitted events. -/
theorem chunk_boundary_independence (P : List Char → Option Json) (S : List Char)
    (cs₁ cs₂ : List (List Char)) (h₁ : cs₁.flatten = S) (h₂ : cs₂.flatten = S)
    (hg : goodLines P (splitBuf S).1 = true) :
    decodeChunks P cs₁ = decodeChunks P cs₂ := by
  unfold decodeChunks
  have n1 := runFrom_eq_processLines P cs₁ [] (by simp)
    (by rw [List.nil_append, h₁]; exact hg)
  have n2 := runFrom_eq_processLines P cs₂ [] (by simp)
    (by rw [List.nil_append, h₂]; exact hg)
  rw [List.nil_append, h₁] at n1
  rw [List.nil_append, h₂] at n2
  rw [n1, n2]

/-- Claim C1, witness: a well-formed two-record stream decodes identically
whether delivered whole or split at character 17 (mid-record). -/
theorem chunk_boundary_independence_witness :
    decodeChunks parseRecord [outHi ++ ['\n'] ++ endRec ++ ['\n']] =
      decodeChunks parseRecord
        [List.take 17 (outHi ++ ['\n'] ++ endRec ++ ['\n']),
         List.drop 17 (outHi ++ ['\n'] ++ endRec ++ ['\n'])] :=
  chunk_boundary_independence parseRecord (outHi ++ ['\n'] ++ endRec ++ ['\n'])
    [outHi ++ ['\n'] ++ endRec ++ ['\n']]
    [List.take 17 (outHi ++ ['\n'] ++ endRec ++ ['\n']),
     List.drop 17 (outHi ++ ['\n'] ++ endRec ++ ['\n'])]
    (by simp) (by simp) (by decide)

/-- Claim C1, counterexample: the claim as stated (independence for every
byte stream) is false.  A stream containing an `output` record after the
`end`/`STREAM_END` record emits no event when delivered as one chunk
(the sentinel `break` drops the rest of the batch) but emits the late
record when the two lines arrive in separate chunks. -/
theorem chunk_boundary_dependence_cex :
    decodeChunks parseRecord [endRec ++ ['\n'] ++ outLate ++ ['\n']] ≠
      decodeChunks parseRecord [endRec ++ ['\n'], outLate ++ ['\n']] := by
  intro hcon
  have e1 : decodeChunks parseRecord [endRec ++ ['\n'] ++ outLate ++ ['\n']] = [] := rfl
  have e2 : decodeChunks parseRecord [endRec ++ ['\n'], outLate ++ ['\n']] =
      [⟨EvKind.info, Json.str (String.toList "late")⟩] := rfl
  rw [e1, e2] at hcon
  exact List.noConfusion hcon

/-- Claim C2 (amended): when the decoder parses an `end` record carrying
the `STREAM_END` sentinel it signals stream termination (the sentinel
flag that triggers `stopTaskMonitoring`) and emits no event for any
remaining complete line of the current buffered chunk batch; it does not
stop the read loop, which continues unconditionally with the next chunk,
so lines delivered in later chunks are still processed. -/
theorem end_sentinel_stops_batch (P : List Char → Option Json)
    (ls₁ ls₂ : List (List Char)) (e : List Char)
    (he : (lineStep P e).2 = true) (h1 : (processLines P ls₁).2 = false) :
    processLines P (ls₁ ++ e :: ls₂) = ((processLines P ls₁).1, true) ∧
    (∀ buf c cs, runFrom P buf (c :: cs) =
      ((processLines P (splitBuf (buf ++ c)).1).1 ++ (runFrom P (splitBuf (buf ++ c)).2 cs).1,
       ((processLines P (splitBuf (buf ++ c)).1).2 || (runFrom P (splitBuf (buf ++ c)).2 cs).2))) := by
  constructor
  · rw [processLines_append, if_neg (by simp [h1])]
    have hmid : processLines P (e :: ls₂) = ([], true) := by
      have hnil := lineStep_end_nil P e he
      simp [processLines, he, hnil]
    rw [hmid]
    simp
  · intro buf c cs
    rfl

/-- Claim C2, witness: in a single batch, a valid record before the
sentinel is emitted, the sentinel sets the termination flag, and the
record after the sentinel in the same batch is not emitted. -/
theorem end_sentinel_stops_batch_witness :
    processLines parseRecord ([outHi] ++ endRec :: [outLate2]) =
      ((processLines parseRecord [outHi]).1, true) :=
  (end_sentinel_stops_batch parseRecord [outHi] [outLate2] endRec rfl rfl).1

/-- Claim C2, counterexample: the claim as stated is false — the decoder
does not stop reading at the sentinel.  The first chunk consists of the
`end`/`STREAM_END` record, yet the `output` record delivered in the
following chunk is still emitted as an event. -/
theorem post_sentinel_line_emitted_cex :
    (processLines parseRecord (splitBuf (endRec ++ ['\n'])).1).2 = true ∧
    decodeChunks parseRecord [endRec ++ ['\n'], outLate2 ++ ['\n']] =
      [⟨EvKind.info, Json.str (String.toList "late2")⟩] :=
  ⟨rfl, rfl⟩

/-- Claim C7: a complete line whose trimmed text is a pure hexadecimal
token is never emitted: its line step produces no event and no sentinel
signal, and deleting it from any batch of complete lines leaves the
batch's decode result unchanged.  Under any fragmentation the complete
lines are carved identically from the concatenated stream
(`splitBuf_append`), and every batch is processed by `processLines`, so
the line contributes no event wherever the chunk boundaries fall. -/
theorem hex_line_never_emitted (P : List Char → Option Json) (ls₁ ls₂ : List (List Char))
    (h : List Char) (hh : isHexTok (trimChars h) = true) :
    lineStep P h = ([], false) ∧
    processLines P (ls₁ ++ h :: ls₂) = processLines P (ls₁ ++ ls₂) := by
  have hne : (trimChars h).isEmpty = false := by
    cases ht : trimChars h with
    | nil => rw [ht] at hh; simp [isHexTok] at hh
    | cons a as => simp
  have hstep : lineStep P h = ([], false) := by
    simp [lineStep, hne, hh]
  refine ⟨hstep, ?_⟩
  induction ls₁ with
  | nil => simp [processLines, hstep]
  | cons l ls ih =>
      by_cases hl : (lineStep P l).2 <;> simp [processLines, hl, ih]

/-- Claim C7, witness: the transport artifact line `1a2F` contributes no
event between two verbatim text lines. -/
theorem hex_line_never_emitted_witness :
    processLines parseRecord
        ([String.toList "alpha"] ++ String.toList "1a2F" :: [String.toList "omega"]) =
      processLines parseRecord ([String.toList "alpha"] ++ [String.toList "omega"]) :=
  (hex_line_never_emitted parseRecord [String.toList "alpha"] [String.toList "omega"]
    (String.toList "1a2F") rfl).2

/-- Claim C8: a complete line that is non-blank, not a pure hex token and
fails structured decode is emitted as an `output`-kind event carrying
exactly the trimmed text that failed to decode, and processing of the
following lines continues unaffected (the line is neither dropped nor
does it abort the batch). -/
theorem malformed_line_verbatim (P : List Char → Option Json) (l : List Char)
    (ls : List (List Char)) (hne : trimChars l ≠ [])
    (hhex : isHexTok (trimChars l) = false) (hp : P (trimChars l) = none) :
    lineStep P l = ([⟨EvKind.info, Json.str (trimChars l)⟩], false) ∧
    processLines P (l :: ls) =
      (⟨EvKind.info, Json.str (trimChars l)⟩ :: (processLines P ls).1,
        (processLines P ls).2) := by
  have he : (trimChars l).isEmpty = false := by
    cases ht : trimChars l with
    | nil => exact absurd ht hne
    | cons a as => simp
  have hstep : lineStep P l = ([⟨EvKind.info, Json.str (trimChars l)⟩], false) := by
    simp [lineStep, he, hhex, hp]
  exact ⟨hstep, by simp [processLines, hstep]⟩

/-- Claim C8, witness: the malformed line `∆∆garbled∆∆` between two valid
records is rendered verbatim and the following record still decodes. -/
theorem malformed_line_verbatim_witness :
    processLines parseRecord (String.toList "∆∆garbled∆∆" :: [outHi]) =
      (⟨EvKind.info, Json.str (trimChars (String.toList "∆∆garbled∆∆"))⟩ ::
        (processLines parseRecord [outHi]).1,
        (processLines parseRecord [outHi]).2) :=
  (malformed_line_verbatim parseRecord (String.toList "∆∆garbled∆∆") [outHi]
    (by decide) rfl rfl).2


theorem contentTruthy_of_sentinel (j : Json) (h : contentIsSentinel j = true) :
    contentTruthy j = true := by
  unfold contentIsSentinel at h
  unfold contentTruthy
  generalize getField j coKey = r at h ⊢
  cases r with
  | none => simp at h
  | some v =>
      cases v with
      | str c =>
          have hc : c = sentinelLit := by simpa using h
          subst hc
          decide
      | null => simp at h
      | bool b => simp at h
      | num n => simp at h
      | arr xs => simp at h
      | obj kvs => simp at h

theorem dispatch_dropped (j : Json)
    (hcond : (recognizedKind j = true ∧ contentTruthy j = false) ∨ recognizedKind j = false) :
    dispatch j = ([], false) := by
  unfold dispatch
  rcases hcond with ⟨hk, hc⟩ | hk
  · have hs : contentIsSentinel j = false := by
      cases hss : contentIsSentinel j
      · rfl
      · rw [contentTruthy_of_sentinel j hss] at hc
        exact absurd hc (by simp)
    simp [hc, hs]
  · unfold recognizedKind at hk
    simp only [Bool.or_eq_false_iff] at hk
    simp [hk.1.1.1.1, hk.1.1.1.2, hk.1.1.2, hk.1.2, hk.2]

/-- Claim C10: a line that parses successfully as JSON but carries a
recognized kind with a falsy `content` field, or an unrecognized kind
(one that is none of the five protocol kinds), is silently dropped: the
decoder emits no event for it, does not fall back to verbatim output,
and does not treat it as the end sentinel. -/
theorem json_unrenderable_dropped (P : List Char → Option Json) (l : List Char) (j : Json)
    (hne : trimChars l ≠ []) (hhex : isHexTok (trimChars l) = false)
    (hp : P (trimChars l) = some j)
    (hcond : (recognizedKind j = true ∧ contentTruthy j = false) ∨ recognizedKind j = false) :
    lineStep P l = ([], false) := by
  have he : (trimChars l).isEmpty = false := by
    cases ht : trimChars l with
    | nil => exact absurd ht hne
    | cons a as => simp
  simp [lineStep, he, hhex, hp, dispatch_dropped j hcond]

/-- Claim C10, witness: the well-formed record of unrecognized kind
`debug` is silently dropped. -/
theorem json_unrenderable_dropped_witness :
    lineStep parseRecord
        (String.toList "\x7b\x22type\x22:\x22debug\x22,\x22content\x22:\x22x\x22\x7d") =
      ([], false) :=
  json_unrenderable_dropped parseRecord
    (String.toList "\x7b\x22type\x22:\x22debug\x22,\x22content\x22:\x22x\x22\x7d")
    (Json.obj [(tyKey, Json.str (String.toList "debug")), (coKey, Json.str (String.toList "x"))])
    (by decide) rfl rfl (Or.inr rfl)

theorem resetUIState_running (st : CtrlState) : (resetUIState st).isScriptRunning = false := by
  simp [resetUIState, stopTaskMonitoring]

theorem resetUIState_abort (st : CtrlState) : (resetUIState st).abortController = false := by
  simp [resetUIState, stopTaskMonitoring]

theorem resetUIState_monitor (st : CtrlState) : (resetUIState st).taskMonitorInterval = false := by
  simp [resetUIState, stopTaskMonitoring]

theorem stopScript_resets_helper (st : CtrlState) (oc : Except (List Char) StopResp)
    (h : oc ≠ Except.error abortErrLit) :
    (stopScript st oc).isScriptRunning = false ∧
    (stopScript st oc).abortController = false ∧
    (stopScript st oc).taskMonitorInterval = false := by
  unfold stopScript
  cases oc with
  | ok r =>
      by_cases hk : r.ok <;> by_cases h1 : r.resStatus = sucLit <;>
        by_cases h2 : r.resStatus = String.toList "info" <;>
        by_cases hab : st.abortController <;>
        simp [hk, h1, h2, hab, resetUIState, stopTaskMonitoring, appendOutput]
  | error n =>
      have hn : n ≠ abortErrLit := fun he => h (by rw [he])
      by_cases hab : st.abortController <;>
        simp [hn, hab, resetUIState, stopTaskMonitoring, appendOutput]

/-- Claim C3: calling `runScript` while the running flag is set issues no
start request and leaves the running flag, the abort controller and the
poll timer unchanged; the only change is the informational
already-running warning appended to the output. -/
theorem start_single_flight (P : List Char → Option Json) (st : CtrlState)
    (scriptName : List Char) (oc : RunOutcome) (h : st.isScriptRunning = true) :
    runScriptStart st scriptName = (appendOutput st alreadyRunningMsg EvKind.warning, false) ∧
    (runScriptStart st scriptName).1.isScriptRunning = st.isScriptRunning ∧
    (runScriptStart st scriptName).1.abortController = st.abortController ∧
    (runScriptStart st scriptName).1.taskMonitorInterval = st.taskMonitorInterval ∧
    (runScriptStart st scriptName).1.outputLog =
      st.outputLog ++ [⟨EvKind.warning, Json.str alreadyRunningMsg⟩] ∧
    runScript P st scriptName oc = appendOutput st alreadyRunningMsg EvKind.warning := by
  simp [runScriptStart, runScript, appendOutput, h]

/-- Claim C3, witness. -/
theorem start_single_flight_witness :
    runScriptStart ⟨true, true, true, []⟩ (String.toList "unzip") =
      (appendOutput ⟨true, true, true, []⟩ alreadyRunningMsg EvKind.warning, false) :=
  (start_single_flight parseRecord ⟨true, true, true, []⟩ (String.toList "unzip")
    ⟨[], none⟩ rfl).1

/-- Claim C4: every call of `stopScript` — an ok response, a non-success
HTTP status (which throws and is caught), or a network error — reaches
the reset state before returning: running flag cleared, abort controller
cleared, task monitoring stopped.  The only non-resetting path in the
source is a caught `AbortError`, which cannot occur because the stop
request carries no abort signal. -/
theorem stop_always_recovers (st : CtrlState) (oc : Except (List Char) StopResp)
    (h : oc ≠ Except.error abortErrLit) :
    (stopScript st oc).isScriptRunning = false ∧
    (stopScript st oc).abortController = false ∧
    (stopScript st oc).taskMonitorInterval = false :=
  stopScript_resets_helper st oc h

/-- Claim C4, witness: a network error (`TypeError`) on the stop request
still clears the running flag. -/
theorem stop_always_recovers_witness :
    (stopScript ⟨true, true, true, []⟩
        (Except.error (String.toList "TypeError"))).isScriptRunning = false :=
  (stop_always_recovers ⟨true, true, true, []⟩ (Except.error (String.toList "TypeError"))
    (fun hcon => absurd (Except.error.inj hcon) (by decide))).1

/-- Claim C5: reconciliation is server-authoritative in both directions.
When a poll snapshot has an empty active-task set while the local
running flag is set, the local state is forced to the reset state; when
the snapshot is non-empty while the local flag is clear, the local state
adopts running.  `updateTaskStatus` returns only a client state: the
local belief is never written back over the snapshot. -/
theorem reconciliation_server_wins (st : CtrlState) (td : TaskSnapshot) :
    (td.active_tasks = [] → st.isScriptRunning = true →
      updateTaskStatus st td = resetUIState st) ∧
    (td.active_tasks ≠ [] → st.isScriptRunning = false →
      (updateTaskStatus st td).isScriptRunning = true) := by
  constructor
  · intro he hr
    simp [updateTaskStatus, he, hr, resetUIState, stopTaskMonitoring]
  · intro hne hr
    have hpos : 0 < td.active_tasks.length := List.length_pos.mpr hne
    simp [updateTaskStatus, hpos, hr]

/-- Claim C5, witness: an empty snapshot against a running local state
forces the reset state. -/
theorem reconciliation_server_wins_witness :
    updateTaskStatus ⟨true, true, true, []⟩ ⟨[], 0, 0⟩ =
      resetUIState ⟨true, true, true, []⟩ :=
  (reconciliation_server_wins ⟨true, true, true, []⟩ ⟨[], 0, 0⟩).1 rfl rfl

/-- Claim C6: the poll timer is at rest when nothing runs.  First, a poll
snapshot with no active tasks while the local flag is clear leaves no
poll timer active.  Second, start followed immediately by stop (before
any byte arrives) leaves no poll timer active.  Third, the invariant
that the poll timer is active only while the running flag is set is
preserved by every modelled transition: the start head, `stopScript`,
`updateTaskStatus`, and a full `runScript` execution. -/
theorem poller_at_rest (P : List Char → Option Json) (st : CtrlState) (td : TaskSnapshot)
    (scriptName : List Char) (oc : Except (List Char) StopResp) (roc : RunOutcome) :
    (td.active_tasks = [] → st.isScriptRunning = false →
      (updateTaskStatus st td).taskMonitorInterval = false) ∧
    (st.isScriptRunning = false → oc ≠ Except.error abortErrLit →
      (stopScript (runScriptStart st scriptName).1 oc).taskMonitorInterval = false) ∧
    ((st.taskMonitorInterval = true → st.isScriptRunning = true) →
      ((runScriptStart st scriptName).1.taskMonitorInterval = true →
        (runScriptStart st scriptName).1.isScriptRunning = true) ∧
      ((stopScript st oc).taskMonitorInterval = true →
        (stopScript st oc).isScriptRunning = true) ∧
      ((updateTaskStatus st td).taskMonitorInterval = true →
        (updateTaskStatus st td).isScriptRunning = true) ∧
      ((runScript P st scriptName roc).taskMonitorInterval = true →
        (runScript P st scriptName roc).isScriptRunning = true)) := by
  refine ⟨?_, ?_, ?_⟩
  · intro he hr
    by_cases hm : st.taskMonitorInterval <;>
      simp [updateTaskStatus, he, hr, hm, stopTaskMonitoring, resetUIState]
  · intro _ hoc
    exact (stopScript_resets_helper _ oc hoc).2.2
  · intro hinv
    refine ⟨?_, ?_, ?_, ?_⟩
    · by_cases hr : st.isScriptRunning <;>
        simp [runScriptStart, hr, appendOutput, startTaskMonitoring, hinv]
    · by_cases hoc : oc = Except.error abortErrLit
      · subst hoc
        by_cases hab : st.abortController <;>
          simp [stopScript, hab] <;> exact hinv
      · intro hm
        rw [(stopScript_resets_helper st oc hoc).2.2] at hm
        exact absurd hm (by simp)
    · by_cases hpos : 0 < td.active_tasks.length
      · by_cases hr : st.isScriptRunning <;> simp [updateTaskStatus, hpos, hr]
      · intro hm
        by_cases hr : st.isScriptRunning <;>
          by_cases hm0 : st.taskMonitorInterval <;>
          simp [updateTaskStatus, hpos, hr, hm0, resetUIState, stopTaskMonitoring] at hm ⊢
    · by_cases hr : st.isScriptRunning
      · simp [runScript, hr, appendOutput]
      · intro hm
        have hfalse : st.isScriptRunning = false := Bool.of_not_eq_true hr
        simp [runScript, hfalse, resetUIState_monitor] at hm

/-- Claim C6, witness: an empty poll snapshot at rest leaves the poll
timer inactive. -/
theorem poller_at_rest_witness :
    (updateTaskStatus ⟨false, false, true, []⟩ ⟨[], 0, 0⟩).taskMonitorInterval = false :=
  (poller_at_rest parseRecord ⟨false, false, true, []⟩ ⟨[], 0, 0⟩ (String.toList "unzip")
    (Except.ok ⟨true, 200, sucLit, []⟩) ⟨[], none⟩).1 rfl rfl

/-- Claim C9: every execution of `runScript` that passes the single-flight
guard — normal completion, transport error, decode-level exception, or
user cancellation (`AbortError`) — funnels into the `finally` reset, so
when `runScript` returns the running flag is clear, the abort controller
is cleared and no poll timer is active, and a new start can be
attempted. -/
theorem runScript_always_resets (P : List Char → Option Json) (st : CtrlState)
    (scriptName : List Char) (oc : RunOutcome) (h : st.isScriptRunning = false) :
    (runScript P st scriptName oc).isScriptRunning = false ∧
    (runScript P st scriptName oc).abortController = false ∧
    (runScript P st scriptName oc).taskMonitorInterval = false := by
  simp only [runScript, h]
  exact ⟨resetUIState_running _, resetUIState_abort _, resetUIState_monitor _⟩

/-- Claim C9, witness: a run cancelled by the user (`AbortError` after one
chunk) still returns with the running flag clear. -/
theorem runScript_always_resets_witness :
    (runScript parseRecord ⟨false, false, false, []⟩ (String.toList "unzip")
        ⟨[outHi ++ ['\n']], some abortErrLit⟩).isScriptRunning = false :=
  (runScript_always_resets parseRecord ⟨false, false, false, []⟩ (String.toList "unzip")
    ⟨[outHi ++ ['\n']], some abortErrLit⟩ rfl).1
